import Mathlib

/-!
Verification of the zowe-client-go-sdk against its specification.

The Go sources are shallowly embedded: pure functions become Lean
functions, HTTP round trips become oracle functions supplied as
arguments, and request construction is modelled as pure data.  Machine
integers are modelled as `Int`/`Nat`; Go byte lengths are computed from
UTF-8 sizes.
-/

namespace Zowe

/-! ## String utilities modelling Go's `strings` package -/

/-- Tests whether the first list is an initial segment of the second
(`strings.HasPrefix` on rune lists). -/
def strStarts : List Char → List Char → Bool
  | [], _ => true
  | _ :: _, [] => false
  | p :: ps, c :: cs => p == c && strStarts ps cs

/-- Tests whether `pat` occurs as a contiguous segment of the list
(the search loop behind `strings.Contains`). -/
def strHasSeg (pat : List Char) : List Char → Bool
  | [] => pat.isEmpty
  | c :: cs => strStarts pat (c :: cs) || strHasSeg pat cs

/-- Go `strings.Contains s pat`. -/
def strContains (s pat : String) : Bool := strHasSeg pat.data s.data

/-- Go `strings.HasPrefix s pat`. -/
def strStartsWith (s pat : String) : Bool := strStarts pat.data s.data

/-- Go `strings.HasSuffix s pat`. -/
def strEndsWith (s pat : String) : Bool := strStarts pat.data.reverse s.data.reverse

/-- Go `strings.ToUpper` (the sources only apply it to ASCII data, where
`Char.toUpper` agrees with Go). -/
def strToUpper (s : String) : String := ⟨s.data.map Char.toUpper⟩

/-- Go `strings.ToLower` (ASCII, as above). -/
def strToLower (s : String) : String := ⟨s.data.map Char.toLower⟩

/-- UTF-8 byte length of a rune list, as Go `len` on a string. -/
def goLenL : List Char → Nat
  | [] => 0
  | c :: cs => c.utf8Size + goLenL cs

/-- Go `len(s)` for a string: its UTF-8 byte count. -/
def goLen (s : String) : Nat := goLenL s.data

theorem length_le_goLenL (l : List Char) : l.length ≤ goLenL l := by
  induction l with
  | nil => simp [goLenL]
  | cons c cs ih =>
    have hc : 0 < c.utf8Size := Char.utf8Size_pos c
    simp only [goLenL, List.length_cons]
    omega

theorem goLenL_pos {l : List Char} (h : l ≠ []) : 0 < goLenL l := by
  cases l with
  | nil => exact absurd rfl h
  | cons c cs =>
    have hc : 0 < c.utf8Size := Char.utf8Size_pos c
    simp only [goLenL]
    omega

/-! ## Profile package: `NewSession` base-URL computation (session.go) -/

/-- Connection profile (`profile.ZOSMFProfile`).  Fields are listed in
source order. -/
structure ZOSMFProfile where
  Name : String
  Host : String
  Port : Int
  User : String
  Password : String
  RejectUnauthorized : Bool
  BasePath : String
  Protocol : String
  Encoding : String
  ResponseTimeout : Int
  CertFile : String
  CertKeyFile : String
deriving DecidableEq, Repr

/-- Base URL computed by `(*ZOSMFProfile).NewSession` (session.go lines
27-52): protocol selection, conditional port suffix, and base-path
defaulting. -/
def newSessionBaseURL (p : ZOSMFProfile) : String :=
  let protocol := if p.Protocol = "" then "https" else p.Protocol
  let protocol := if p.Port = 80 then "http" else if p.Port = 8080 then "http" else protocol
  let baseURL := protocol ++ "://" ++ p.Host
  let baseURL :=
    if p.Port ≠ 0 ∧ p.Port ≠ 80 ∧ p.Port ≠ 443 then baseURL ++ ":" ++ toString p.Port
    else baseURL
  let basePath := if p.BasePath = "" then "/zosmf" else p.BasePath
  let basePath := if strStartsWith basePath "/" then basePath else "/" ++ basePath
  baseURL ++ basePath

/-- Base URL as the specification claim words it: protocol defaults to
http only when the port is 80 or 8080 (https otherwise), the port is
appended whenever it is not 80 or 443, and the path is the base path
(slash-prefixed) or `/zosmf`. -/
def claimBaseURL (p : ZOSMFProfile) : String :=
  let protocol :=
    if p.Protocol = "" then (if p.Port = 80 ∨ p.Port = 8080 then "http" else "https")
    else p.Protocol
  let baseURL := protocol ++ "://" ++ p.Host
  let baseURL :=
    if p.Port ≠ 80 ∧ p.Port ≠ 443 then baseURL ++ ":" ++ toString p.Port
    else baseURL
  let basePath := if p.BasePath = "" then "/zosmf" else p.BasePath
  let basePath := if strStartsWith basePath "/" then basePath else "/" ++ basePath
  baseURL ++ basePath

/-- Base URL as the amended claim words it: the protocol is forced to
http whenever the port is 80 or 8080 (even when the profile sets a
protocol), otherwise it is the profile's protocol with https as the
default; the port is appended only when it is none of 0, 80, 443; the
path is the base path (slash-prefixed) or `/zosmf`. -/
def amendedBaseURL (p : ZOSMFProfile) : String :=
  let protocol :=
    if p.Port = 80 ∨ p.Port = 8080 then "http"
    else if p.Protocol = "" then "https" else p.Protocol
  let baseURL := protocol ++ "://" ++ p.Host
  let baseURL :=
    if p.Port ≠ 0 ∧ p.Port ≠ 80 ∧ p.Port ≠ 443 then baseURL ++ ":" ++ toString p.Port
    else baseURL
  let basePath := if p.BasePath = "" then "/zosmf" else p.BasePath
  let basePath := if strStartsWith basePath "/" then basePath else "/" ++ basePath
  baseURL ++ basePath

/-- Profile used to refute the claim formula: port 0 (a port-less
profile, as the repository's own tests construct). -/
def portlessProfile : ZOSMFProfile :=
  ⟨"test", "example.com", 0, "", "", false, "", "", "", 0, "", ""⟩

/-- Claim C1 counterexample: for a profile with port 0 the claim formula
appends ":0" (0 is not in {80,443}) but `NewSession` appends no port at
all, so the computed base URL differs from the claimed one. -/
theorem claim1_counterexample :
    newSessionBaseURL portlessProfile = "https://example.com/zosmf" ∧
    claimBaseURL portlessProfile = "https://example.com:0/zosmf" ∧
    newSessionBaseURL portlessProfile ≠ claimBaseURL portlessProfile := by
  refine ⟨rfl, rfl, ?_⟩
  decide

/-- Claim C1 (amended): for every profile, `NewSession` yields
`BaseURL = {protocol}://{host}[:{port} if port ∉ {0,80,443}]{path}`,
where the protocol is http whenever the port is 80 or 8080 and
otherwise the profile's protocol (https when unset), and the path is
the slash-prefixed base path, defaulting to `/zosmf`. -/
theorem claim1_amended (p : ZOSMFProfile) : newSessionBaseURL p = amendedBaseURL p := by
  unfold newSessionBaseURL amendedBaseURL
  by_cases h80 : p.Port = 80 <;> by_cases h8080 : p.Port = 8080 <;>
    by_cases hpr : p.Protocol = "" <;> simp [h80, h8080, hpr]

/-- Claim C1 amended witness: the amended formula evaluated at a
profile that sets protocol "https" together with port 8080 (the code
forces http there). -/
theorem claim1_witness :
    newSessionBaseURL ⟨"t", "host", 8080, "u", "pw", true, "/api/v1", "https", "", 0, "", ""⟩ =
      amendedBaseURL ⟨"t", "host", 8080, "u", "pw", true, "/api/v1", "https", "", 0, "", ""⟩ :=
  claim1_amended _

/-! ## Jobs package: completion test (convenience.go `isJobComplete`) -/

namespace Jobs

/-- Statuses treated as completed (convenience.go line 123). -/
def completedStatuses : List String :=
  ["OUTPUT", "CC 0000", "CC 0001", "CC 0002", "CC 0003", "CC 0004", "ABEND"]

/-- Go `isJobComplete`: upper-cases the status and scans the completed
list for a contained substring. -/
def isJobComplete (status : String) : Bool :=
  let status := strToUpper status
  completedStatuses.any (fun completedStatus => strContains status completedStatus)

/-- Claim C6: `isJobComplete` is true exactly when the upper-cased
status contains one of the seven completion substrings; it accepts
"OUTPUT", "CC 0000".."CC 0004" and "ABEND" case-insensitively and
rejects "ACTIVE", "INPUT" and "RUNNING". -/
theorem claim6_isJobComplete :
    (∀ s : String, isJobComplete s =
      (strContains (strToUpper s) "OUTPUT" ||
       (strContains (strToUpper s) "CC 0000" ||
        (strContains (strToUpper s) "CC 0001" ||
         (strContains (strToUpper s) "CC 0002" ||
          (strContains (strToUpper s) "CC 0003" ||
           (strContains (strToUpper s) "CC 0004" ||
            strContains (strToUpper s) "ABEND"))))))) ∧
    isJobComplete "OUTPUT" = true ∧ isJobComplete "output" = true ∧
    isJobComplete "CC 0000" = true ∧ isJobComplete "cc 0000" = true ∧
    isJobComplete "CC 0001" = true ∧ isJobComplete "cc 0001" = true ∧
    isJobComplete "CC 0002" = true ∧ isJobComplete "cc 0002" = true ∧
    isJobComplete "CC 0003" = true ∧ isJobComplete "cc 0003" = true ∧
    isJobComplete "CC 0004" = true ∧ isJobComplete "cc 0004" = true ∧
    isJobComplete "ABEND" = true ∧ isJobComplete "abend" = true ∧
    isJobComplete "ACTIVE" = false ∧ isJobComplete "INPUT" = false ∧
    isJobComplete "RUNNING" = false := by
  refine ⟨fun s => ?_, ?_⟩
  · simp [isJobComplete, completedStatuses, List.any, Bool.or_assoc]
  · decide

/-- Claim C6 witness: the substring characterization evaluated at the
mixed-case status "cc 0003". -/
theorem claim6_witness :
    isJobComplete "cc 0003" =
      (strContains (strToUpper "cc 0003") "OUTPUT" ||
       (strContains (strToUpper "cc 0003") "CC 0000" ||
        (strContains (strToUpper "cc 0003") "CC 0001" ||
         (strContains (strToUpper "cc 0003") "CC 0002" ||
          (strContains (strToUpper "cc 0003") "CC 0003" ||
           (strContains (strToUpper "cc 0003") "CC 0004" ||
            strContains (strToUpper "cc 0003") "ABEND")))))) :=
  claim6_isJobComplete.1 "cc 0003"

end Jobs

/-! ## JSON values and Go `encoding/json` unmarshalling (jobs package) -/

/-- JSON values as decoded by `encoding/json`. -/
inductive Json where
  | null : Json
  | bool (b : Bool) : Json
  | num (n : Int) : Json
  | str (s : String) : Json
  | arr (elems : List Json) : Json
  | obj (fields : List (String × Json)) : Json

/-- True for the empty JSON object: the model of a response body whose
text is the literal `{}`. -/
def Json.isEmptyObj : Json → Bool
  | .obj [] => true
  | _ => false

/-- Field lookup in a decoded object.  Go's decoder assigns keys in
order, so a later duplicate key wins. -/
def Json.getField : List (String × Json) → String → Option Json
  | [], _ => none
  | (k, v) :: rest, key =>
    match Json.getField rest key with
    | some w => some w
    | none => if k = key then some v else none

namespace Jobs

/-- A z/OS job (`jobs.Job`).  The four always-present JSON string fields
and the return code are modelled; the remaining `omitempty` metadata
fields never influence the verified control flow and are elided. -/
structure Job where
  jobid : String
  jobname : String
  owner : String
  status : String
  retcode : String
deriving DecidableEq, Repr

/-- Go unmarshalling of a JSON value into a string struct field: absent
or null leaves the zero value, a string decodes, anything else errors. -/
def unmarshalStringField (fields : List (String × Json)) (key : String) :
    Except String String :=
  match Json.getField fields key with
  | none => .ok ""
  | some .null => .ok ""
  | some (.str s) => .ok s
  | some _ => .error ("cannot unmarshal into string field " ++ key)

/-- Go unmarshalling of a JSON value into a `Job` struct. -/
def unmarshalJob : Json → Except String Job
  | .null => .ok ⟨"", "", "", "", ""⟩
  | .obj fields => do
    let jobid ← unmarshalStringField fields "jobid"
    let jobname ← unmarshalStringField fields "jobname"
    let owner ← unmarshalStringField fields "owner"
    let status ← unmarshalStringField fields "status"
    let retcode ← unmarshalStringField fields "retcode"
    .ok ⟨jobid, jobname, owner, status, retcode⟩
  | _ => .error "cannot unmarshal into Job"

/-- Go unmarshalling into `[]Job`: an array decodes element-wise, null
gives the nil slice, anything else errors. -/
def unmarshalJobs : Json → Except String (List Job)
  | .null => .ok []
  | .arr elems => elems.mapM unmarshalJob
  | _ => .error "cannot unmarshal into Job array"

/-- Go unmarshalling into `JobList` (a struct whose only tagged field is
`jobs`): an object decodes its `jobs` field (absent means the empty
slice), null gives the zero struct, an array or scalar errors. -/
def unmarshalJobList : Json → Except String (List Job)
  | .null => .ok []
  | .obj fields =>
    match Json.getField fields "jobs" with
    | none => .ok []
    | some v => unmarshalJobs v
  | _ => .error "cannot unmarshal into JobList"

/-- Response-body decoding tail of `ListJobs` (manager.go lines
113-128): try the wrapper struct first and accept it only when its jobs
slice is non-empty or the body is the literal `{}`; otherwise fall back
to a bare array; error when the fallback also fails. -/
def listJobsParse (body : Json) : Except String (List Job) :=
  let fallback : Except String (List Job) :=
    match unmarshalJobs body with
    | .ok jobsArr => .ok jobsArr
    | .error _ => .error "failed to decode response"
  match unmarshalJobList body with
  | .ok jobList =>
    if jobList.length > 0 || body.isEmptyObj then .ok jobList else fallback
  | .error _ => fallback

/-- Body `{"jobs": []}`: decodes under the wrapper shape yet is rejected
by `ListJobs`. -/
def emptyJobsWrapper : Json := Json.obj [("jobs", Json.arr [])]

/-- Claim C2 counterexample: the body `{"jobs": []}` parses under the
wrapper shape (to the empty slice), yet `ListJobs` rejects it with a
decode error, so a body that parses under one shape is not always
accepted and a decode error can be surfaced when one parse attempt
succeeded. -/
theorem claim2_counterexample :
    unmarshalJobList emptyJobsWrapper = .ok [] ∧
    listJobsParse emptyJobsWrapper = .error "failed to decode response" :=
  ⟨rfl, rfl⟩

/-- Claim C2 (amended): `ListJobs` accepts the wrapper shape whenever
its jobs slice is non-empty or the body is the literal empty object,
always accepts the bare-array shape with the identical job slice, and
surfaces a decode error only when the bare-array parse fails — in
particular a wrapper with an empty jobs array other than `{}` itself is
rejected with a decode error. -/
theorem claim2_amended :
    (∀ body js, unmarshalJobList body = .ok js →
      (js ≠ [] ∨ body.isEmptyObj = true) → listJobsParse body = .ok js) ∧
    (∀ body js, unmarshalJobs body = .ok js → listJobsParse body = .ok js) ∧
    (∀ body msg, listJobsParse body = .error msg →
      ∃ m, unmarshalJobs body = .error m) := by
  refine ⟨?_, ?_, ?_⟩
  · intro body js hok hne
    unfold listJobsParse
    rw [hok]
    have hlen : (decide (js.length > 0) || body.isEmptyObj) = true := by
      rcases hne with h | h
      · simp [List.length_pos.mpr h]
      · simp [h]
    simp [hlen]
  · intro body js hok
    cases body with
    | null =>
      have hjs : js = [] := by
        have : (Except.ok [] : Except String (List Job)) = .ok js := hok
        cases this
        rfl
      subst hjs
      rfl
    | arr elems =>
      unfold listJobsParse
      simp [unmarshalJobList, hok]
    | bool b => exact absurd hok (by simp [unmarshalJobs])
    | num n => exact absurd hok (by simp [unmarshalJobs])
    | str s => exact absurd hok (by simp [unmarshalJobs])
    | obj fields => exact absurd hok (by simp [unmarshalJobs])
  · intro body msg herr
    unfold listJobsParse at herr
    rcases hw : unmarshalJobList body with e | jl
    · rw [hw] at herr
      rcases ha : unmarshalJobs body with m | js
      · exact ⟨m, rfl⟩
      · rw [ha] at herr
        simp at herr
    · rw [hw] at herr
      by_cases hc : jl.length > 0 || body.isEmptyObj
      · simp [hc] at herr
      · rcases ha : unmarshalJobs body with m | js
        · exact ⟨m, rfl⟩
        · rw [ha] at herr
          simp [hc] at herr

/-- Claim C2 amended witness: a wrapper body with one job and the same
body as a bare array both parse to the identical singleton slice. -/
theorem claim2_amended_witness :
    listJobsParse (Json.obj [("jobs",
      Json.arr [Json.obj [("jobid", Json.str "JOB001")]])]) =
      .ok [⟨"JOB001", "", "", "", ""⟩] ∧
    listJobsParse (Json.arr [Json.obj [("jobid", Json.str "JOB001")]]) =
      .ok [⟨"JOB001", "", "", "", ""⟩] :=
  ⟨claim2_amended.1 _ _ rfl (Or.inl (by simp)),
   claim2_amended.2.1 _ _ rfl⟩

end Jobs

/-! ## Jobs package: job-submission validation (convenience.go) -/

namespace Jobs

/-- Go `isValidDatasetChar` (convenience.go lines 334-338): letters,
digits and the symbols `@ # $ - .` (rune comparisons modelled on code
points). -/
def isValidDatasetChar (c : Char) : Bool :=
  decide (65 ≤ c.toNat ∧ c.toNat ≤ 90) || decide (48 ≤ c.toNat ∧ c.toNat ≤ 57) ||
  c == '@' || c == '#' || c == '$' || c == '-' || c == '.'

/-- Go `isValidDatasetName` (convenience.go lines 310-331): length 1-44
bytes, first byte not a digit, every rune in the permitted set. -/
def isValidDatasetName (dataset : String) : Bool :=
  if goLen dataset == 0 || goLen dataset > 44 then false
  else if (match dataset.data with
           | [] => false
           | c :: _ => decide (48 ≤ c.toNat ∧ c.toNat ≤ 57)) then false
  else dataset.data.all isValidDatasetChar

/-- Job submission request (`jobs.SubmitJobRequest`), fields in source
order. -/
structure SubmitJobRequest where
  JobDataSet : String
  JobLocalFile : String
  JobStatement : String
  Directory : String
  Extension : String
  Volume : String
deriving DecidableEq, Repr

/-- Go `ValidateJobRequest` (convenience.go lines 282-307); `none`
models a nil request pointer. -/
def ValidateJobRequest : Option SubmitJobRequest → Except String Unit
  | none => .error "job request cannot be nil"
  | some request =>
    if request.JobStatement = "" ∧ request.JobDataSet = "" ∧ request.JobLocalFile = "" then
      .error "at least one job source must be specified (jobStatement, jobDataSet, or jobLocalFile)"
    else if request.JobStatement ≠ "" ∧ strContains (strToUpper request.JobStatement) "JOB" = false then
      .error "job statement must contain a JOB card"
    else if request.JobDataSet ≠ "" ∧ isValidDatasetName request.JobDataSet = false then
      .error ("invalid dataset name: " ++ request.JobDataSet)
    else .ok ()

/-- Request with two sources set at once (a JCL statement and a
dataset). -/
def twoSourceRequest : SubmitJobRequest :=
  ⟨"TEST.JCL", "", "//TESTJOB JOB (ACCT)", "", "", ""⟩

/-- Claim C3 counterexample: a request with both a JCL statement and a
dataset set passes `ValidateJobRequest` with no error, so validation
does not reject requests with two or more sources set. -/
theorem claim3_counterexample :
    twoSourceRequest.JobStatement ≠ "" ∧ twoSourceRequest.JobDataSet ≠ "" ∧
    ValidateJobRequest (some twoSourceRequest) = .ok () :=
  ⟨by decide, by decide, rfl⟩

/-- Claim C3 (amended): at least one of the three job sources must be
set; a nil request and a request with no source fail with descriptive
errors, and otherwise validation succeeds exactly when the statement
(when set) contains a JOB card and the dataset name (when set) passes
the jobs-package dataset check — setting two or more sources is not
rejected. -/
theorem claim3_amended :
    ValidateJobRequest none = .error "job request cannot be nil" ∧
    (∀ r : SubmitJobRequest, r.JobStatement = "" → r.JobDataSet = "" → r.JobLocalFile = "" →
      ValidateJobRequest (some r) =
        .error "at least one job source must be specified (jobStatement, jobDataSet, or jobLocalFile)") ∧
    (∀ r : SubmitJobRequest, ValidateJobRequest (some r) = .ok () ↔
      (¬(r.JobStatement = "" ∧ r.JobDataSet = "" ∧ r.JobLocalFile = "") ∧
       (r.JobStatement ≠ "" → strContains (strToUpper r.JobStatement) "JOB" = true) ∧
       (r.JobDataSet ≠ "" → isValidDatasetName r.JobDataSet = true))) := by
  refine ⟨rfl, ?_, ?_⟩
  · intro r h1 h2 h3
    simp [ValidateJobRequest, h1, h2, h3]
  · intro r
    simp only [ValidateJobRequest]
    by_cases h1 : r.JobStatement = "" ∧ r.JobDataSet = "" ∧ r.JobLocalFile = ""
    · simp [h1]
    · rw [if_neg h1]
      by_cases h2 : r.JobStatement ≠ "" ∧ strContains (strToUpper r.JobStatement) "JOB" = false
      · rw [if_pos h2]
        constructor
        · intro h
          exact absurd h (by simp)
        · rintro ⟨-, hstmt, -⟩
          exact absurd (hstmt h2.1) (by simp [h2.2])
      · rw [if_neg h2]
        by_cases h3 : r.JobDataSet ≠ "" ∧ isValidDatasetName r.JobDataSet = false
        · rw [if_pos h3]
          constructor
          · intro h
            exact absurd h (by simp)
          · rintro ⟨-, -, hds⟩
            exact absurd (hds h3.1) (by simp [h3.2])
        · rw [if_neg h3]
          push_neg at h2 h3
          simp only [true_iff, iff_true]
          refine ⟨h1, ?_, ?_⟩
          · intro hs
            rcases hc : strContains (strToUpper r.JobStatement) "JOB" with _ | _
            · exact absurd hc (h2 hs)
            · rfl
          · intro hd
            rcases hv : isValidDatasetName r.JobDataSet with _ | _
            · exact absurd hv (h3 hd)
            · rfl

/-- Claim C3 amended witness: the all-empty request is rejected with the
no-source error, and a statement-only request is accepted. -/
theorem claim3_witness :
    ValidateJobRequest (some ⟨"", "", "", "", "", ""⟩) =
      .error "at least one job source must be specified (jobStatement, jobDataSet, or jobLocalFile)" ∧
    ValidateJobRequest (some ⟨"", "", "//A JOB", "", "", ""⟩) = .ok () :=
  ⟨claim3_amended.2.1 _ rfl rfl rfl,
   (claim3_amended.2.2 _).mpr ⟨by decide, fun _ => by decide, fun h => absurd rfl h⟩⟩

end Jobs

/-! ## Datasets package: name validation (convenience.go) -/

namespace Datasets

/-- First character class of the dataset-name regular expression
`^[A-Z@#$][A-Z0-9@#$.-]*$` (convenience.go line 273). -/
def datasetNameFirstChar (c : Char) : Bool :=
  decide (65 ≤ c.toNat ∧ c.toNat ≤ 90) || c == '@' || c == '#' || c == '$'

/-- Subsequent-character class of the same regular expression. -/
def datasetNameRestChar (c : Char) : Bool :=
  decide (65 ≤ c.toNat ∧ c.toNat ≤ 90) || decide (48 ≤ c.toNat ∧ c.toNat ≤ 57) ||
  c == '@' || c == '#' || c == '$' || c == '.' || c == '-'

/-- Full match of `^[A-Z@#$][A-Z0-9@#$.-]*$`. -/
def datasetNameRegexMatch (name : String) : Bool :=
  match name.data with
  | [] => false
  | c :: rest => datasetNameFirstChar c && rest.all datasetNameRestChar

/-- Go `ValidateDatasetName` (datasets convenience.go lines 262-294). -/
def ValidateDatasetName (name : String) : Except String Unit :=
  if name = "" then .error "dataset name cannot be empty"
  else if goLen name > 44 then .error "dataset name cannot exceed 44 characters"
  else if !datasetNameRegexMatch name then .error "dataset name contains invalid characters"
  else if strContains name ".." then .error "dataset name cannot contain consecutive periods"
  else if strStartsWith name "." || strEndsWith name "." then
    .error "dataset name cannot start or end with a period"
  else if strContains name "--" then .error "dataset name cannot contain consecutive hyphens"
  else .ok ()

theorem validateDatasetName_ok_iff (name : String) :
    ValidateDatasetName name = .ok () ↔
    (name ≠ "" ∧ goLen name ≤ 44 ∧ datasetNameRegexMatch name = true ∧
     strContains name ".." = false ∧ strStartsWith name "." = false ∧
     strEndsWith name "." = false ∧ strContains name "--" = false) := by
  unfold ValidateDatasetName
  split_ifs with h1 h2 h3 h4 h5 h6 <;> simp_all
  intro hs he
  rcases h5 with h | h
  · exact absurd h (by simp [hs])
  · exact absurd h (by simp [he])

theorem datasetNameFirstChar_vals {c : Char} (h : datasetNameFirstChar c = true) :
    (65 ≤ c.toNat ∧ c.toNat ≤ 90) ∨ c.toNat = 64 ∨ c.toNat = 35 ∨ c.toNat = 36 := by
  simp [datasetNameFirstChar] at h
  rcases h with ((h | h) | h) | h
  · exact Or.inl h
  · subst h
    exact Or.inr (Or.inl rfl)
  · subst h
    exact Or.inr (Or.inr (Or.inl rfl))
  · subst h
    exact Or.inr (Or.inr (Or.inr rfl))

theorem datasetNameRestChar_vals {c : Char} (h : datasetNameRestChar c = true) :
    (65 ≤ c.toNat ∧ c.toNat ≤ 90) ∨ (48 ≤ c.toNat ∧ c.toNat ≤ 57) ∨
    c.toNat = 64 ∨ c.toNat = 35 ∨ c.toNat = 36 ∨ c.toNat = 46 ∨ c.toNat = 45 := by
  simp [datasetNameRestChar] at h
  rcases h with (((((h | h) | h) | h) | h) | h) | h
  · exact Or.inl h
  · exact Or.inr (Or.inl h)
  · subst h
    exact Or.inr (Or.inr (Or.inl rfl))
  · subst h
    exact Or.inr (Or.inr (Or.inr (Or.inl rfl)))
  · subst h
    exact Or.inr (Or.inr (Or.inr (Or.inr (Or.inl rfl))))
  · subst h
    exact Or.inr (Or.inr (Or.inr (Or.inr (Or.inr (Or.inl rfl)))))
  · subst h
    exact Or.inr (Or.inr (Or.inr (Or.inr (Or.inr (Or.inr rfl)))))

/-- Claim C7: `ValidateDatasetName` accepts "TEST.DATA" and rejects the
empty string, names longer than 44 characters, names containing
lowercase letters, names starting with a digit, names with a leading or
trailing period, names containing "..", and names containing "--". -/
theorem claim7_validateDatasetName :
    ValidateDatasetName "TEST.DATA" = .ok () ∧
    ValidateDatasetName "" = .error "dataset name cannot be empty" ∧
    (∀ name : String, 44 < name.length → ValidateDatasetName name ≠ .ok ()) ∧
    (∀ name : String, (∃ c ∈ name.data, 97 ≤ c.toNat ∧ c.toNat ≤ 122) →
      ValidateDatasetName name ≠ .ok ()) ∧
    (∀ (name : String) (c : Char) (cs : List Char), name.data = c :: cs →
      48 ≤ c.toNat → c.toNat ≤ 57 → ValidateDatasetName name ≠ .ok ()) ∧
    (∀ name : String, strStartsWith name "." = true → ValidateDatasetName name ≠ .ok ()) ∧
    (∀ name : String, strEndsWith name "." = true → ValidateDatasetName name ≠ .ok ()) ∧
    (∀ name : String, strContains name ".." = true → ValidateDatasetName name ≠ .ok ()) ∧
    (∀ name : String, strContains name "--" = true → ValidateDatasetName name ≠ .ok ()) := by
  refine ⟨rfl, rfl, ?_, ?_, ?_, ?_, ?_, ?_, ?_⟩
  · intro name hlen hok
    rcases (validateDatasetName_ok_iff name).mp hok with ⟨-, h44, -⟩
    have : name.length ≤ goLen name := length_le_goLenL name.data
    omega
  · rintro name ⟨c, hmem, hlo, hhi⟩ hok
    rcases (validateDatasetName_ok_iff name).mp hok with ⟨-, -, hre, -⟩
    unfold datasetNameRegexMatch at hre
    rcases hd : name.data with _ | ⟨c0, rest⟩
    · rw [hd] at hre
      exact absurd hre (by simp)
    · rw [hd] at hre hmem
      simp only [Bool.and_eq_true] at hre
      rcases List.mem_cons.mp hmem with hc | hc
      · subst hc
        rcases datasetNameFirstChar_vals hre.1 with h | h | h | h <;> omega
      · have := List.all_eq_true.mp hre.2 c hc
        rcases datasetNameRestChar_vals this with h | h | h | h | h | h | h <;> omega
  · intro name c cs hd hlo hhi hok
    rcases (validateDatasetName_ok_iff name).mp hok with ⟨-, -, hre, -⟩
    unfold datasetNameRegexMatch at hre
    rw [hd] at hre
    simp only [Bool.and_eq_true] at hre
    rcases datasetNameFirstChar_vals hre.1 with h | h | h | h <;> omega
  · intro name hs hok
    rcases (validateDatasetName_ok_iff name).mp hok with ⟨-, -, -, -, hns, -⟩
    rw [hs] at hns
    exact absurd hns (by simp)
  · intro name hs hok
    rcases (validateDatasetName_ok_iff name).mp hok with ⟨-, -, -, -, -, hne, -⟩
    rw [hs] at hne
    exact absurd hne (by simp)
  · intro name hs hok
    rcases (validateDatasetName_ok_iff name).mp hok with ⟨-, -, -, hpp, -⟩
    rw [hs] at hpp
    exact absurd hpp (by simp)
  · intro name hs hok
    rcases (validateDatasetName_ok_iff name).mp hok with ⟨-, -, -, -, -, -, hhh⟩
    rw [hs] at hhh
    exact absurd hhh (by simp)

/-- Claim C7 witness: concrete rejected inputs for each hypothesis of
the claim theorem — a 45-character name, a lowercase name, a
digit-leading name, leading and trailing periods, "..", and "--". -/
theorem claim7_witness :
    ValidateDatasetName "AAAAAAAAAAAAAAAAAAAAAAAAAAAAAAAAAAAAAAAAAAAAA" ≠ .ok () ∧
    ValidateDatasetName "Test.Data" ≠ .ok () ∧
    ValidateDatasetName "1TEST" ≠ .ok () ∧
    ValidateDatasetName ".TEST" ≠ .ok () ∧
    ValidateDatasetName "TEST." ≠ .ok () ∧
    ValidateDatasetName "A..B" ≠ .ok () ∧
    ValidateDatasetName "A--B" ≠ .ok () :=
  ⟨claim7_validateDatasetName.2.2.1 _ (by decide),
   claim7_validateDatasetName.2.2.2.1 _ (by decide),
   claim7_validateDatasetName.2.2.2.2.1 _ '1' "TEST".data rfl (by decide) (by decide),
   claim7_validateDatasetName.2.2.2.2.2.1 _ (by decide),
   claim7_validateDatasetName.2.2.2.2.2.2.1 _ (by decide),
   claim7_validateDatasetName.2.2.2.2.2.2.2.1 _ (by decide),
   claim7_validateDatasetName.2.2.2.2.2.2.2.2 _ (by decide)⟩

end Datasets

/-! ## Relating the two dataset-name validators (claim C10) -/

instance {ε α : Type} [DecidableEq ε] [DecidableEq α] : DecidableEq (Except ε α) :=
  fun a b =>
    match a, b with
    | .error x, .error y =>
      if h : x = y then .isTrue (by rw [h]) else .isFalse (fun hc => by cases hc; exact h rfl)
    | .ok x, .ok y =>
      if h : x = y then .isTrue (by rw [h]) else .isFalse (fun hc => by cases hc; exact h rfl)
    | .error _, .ok _ => .isFalse (fun hc => by cases hc)
    | .ok _, .error _ => .isFalse (fun hc => by cases hc)

theorem firstChar_imp_validChar {c : Char}
    (h : Datasets.datasetNameFirstChar c = true) : Jobs.isValidDatasetChar c = true := by
  simp [Datasets.datasetNameFirstChar] at h
  simp [Jobs.isValidDatasetChar]
  tauto

theorem restChar_imp_validChar {c : Char}
    (h : Datasets.datasetNameRestChar c = true) : Jobs.isValidDatasetChar c = true := by
  simp [Datasets.datasetNameRestChar] at h
  simp [Jobs.isValidDatasetChar]
  tauto

/-- Claim C10: the jobs-package dataset-name check is strictly more
permissive than the datasets-package validator — every name the latter
accepts passes the former, while "A..B", "A." and "-A" pass the
jobs-package check (and hence `ValidateJobRequest` as a `JobDataSet`)
but are rejected by `ValidateDatasetName`. -/
theorem claim10_validator_inclusion :
    (∀ name : String, Datasets.ValidateDatasetName name = .ok () →
      Jobs.isValidDatasetName name = true) ∧
    Jobs.isValidDatasetName "A..B" = true ∧
    Datasets.ValidateDatasetName "A..B" ≠ .ok () ∧
    Jobs.isValidDatasetName "A." = true ∧
    Datasets.ValidateDatasetName "A." ≠ .ok () ∧
    Jobs.isValidDatasetName "-A" = true ∧
    Datasets.ValidateDatasetName "-A" ≠ .ok () ∧
    Jobs.ValidateJobRequest (some ⟨"A..B", "", "", "", "", ""⟩) = .ok () ∧
    Jobs.ValidateJobRequest (some ⟨"A.", "", "", "", "", ""⟩) = .ok () ∧
    Jobs.ValidateJobRequest (some ⟨"-A", "", "", "", "", ""⟩) = .ok () := by
  refine ⟨?_, rfl, by decide, rfl, by decide, rfl, by decide, rfl, rfl, rfl⟩
  intro name hok
  rcases (Datasets.validateDatasetName_ok_iff name).mp hok with ⟨-, h44, hre, -⟩
  unfold Datasets.datasetNameRegexMatch at hre
  rcases hd : name.data with _ | ⟨c0, rest⟩
  · rw [hd] at hre
    exact absurd hre (by simp)
  · rw [hd] at hre
    simp only [Bool.and_eq_true] at hre
    have hpos : 0 < goLen name := goLenL_pos (l := name.data) (by rw [hd]; simp)
    have hcond1 : (goLen name == 0 || decide (goLen name > 44)) = false := by
      simp only [Bool.or_eq_false_iff, beq_eq_false_iff_ne, ne_eq,
        decide_eq_false_iff_not, not_lt]
      exact ⟨by omega, h44⟩
    have hdig : decide (48 ≤ c0.toNat ∧ c0.toNat ≤ 57) = false := by
      simp only [decide_eq_false_iff_not]
      rcases Datasets.datasetNameFirstChar_vals hre.1 with h | h | h | h <;> omega
    have hall : (c0 :: rest).all Jobs.isValidDatasetChar = true := by
      simp only [List.all_cons, Bool.and_eq_true]
      refine ⟨firstChar_imp_validChar hre.1, ?_⟩
      rw [List.all_eq_true]
      intro x hx
      exact restChar_imp_validChar (List.all_eq_true.mp hre.2 x hx)
    unfold Jobs.isValidDatasetName
    rw [hd]
    simp [hcond1, hdig, hall]

/-- Claim C10 witness: the inclusion applied at the concrete accepted
name "TEST.DATA". -/
theorem claim10_witness :
    Datasets.ValidateDatasetName "TEST.DATA" = .ok () ∧
    Jobs.isValidDatasetName "TEST.DATA" = true :=
  ⟨rfl, claim10_validator_inclusion.1 "TEST.DATA" rfl⟩

/-! ## Datasets package: member-upload retry wrapper (convenience.go
`uploadWithRetry`) -/

namespace Datasets

/-- Go constant `maxRetries` (convenience.go line 484). -/
def maxRetries : Nat := 3

/-- Go constant `retryDelay` in seconds (convenience.go line 485). -/
def retryDelaySec : Nat := 2

/-- Retryability test from the loop body (convenience.go lines 498-504):
the lower-cased error text must contain one of six substrings. -/
def isRetryableError (errMsg : String) : Bool :=
  let errorStr := strToLower errMsg
  strContains errorStr "isrz002" || strContains errorStr "i/o error" ||
  strContains errorStr "lmfind error" || strContains errorStr "directory" ||
  strContains errorStr "timeout" || strContains errorStr "connection"

/-- Observable behaviour of one `uploadWithRetry` run: the attempt
numbers at which `UploadContent` was called, the sleep durations (in
seconds) performed between attempts, and the returned error (`none`
means success). -/
structure RetryTrace where
  attempts : List Nat
  sleeps : List Nat
  result : Option String
deriving DecidableEq, Repr

/-- Error message wrapping the last failure after the loop exhausts all
attempts (convenience.go line 518). -/
def wrapRetryFailure (msg : String) : String :=
  "upload failed after " ++ toString maxRetries ++ " attempts: " ++ msg

/-- Loop body of `uploadWithRetry`, iterated over the remaining attempt
numbers; `uploads` gives the outcome of `UploadContent` on each attempt
(`none` = success).  A sleep of `attempt * retryDelay` happens only when
a retryable failure is followed by a further attempt
(`attempt < maxRetries`, i.e. the remaining schedule is non-empty). -/
def uploadWithRetryGo (uploads : Nat → Option String) :
    List Nat → Option String → List Nat → List Nat → RetryTrace
  | [], lastError, atts, sls => ⟨atts, sls, some (wrapRetryFailure (lastError.getD ""))⟩
  | attempt :: rest, _, atts, sls =>
    match uploads attempt with
    | none => ⟨atts ++ [attempt], sls, none⟩
    | some e =>
      if isRetryableError e = false then ⟨atts ++ [attempt], sls, some e⟩
      else uploadWithRetryGo uploads rest (some e) (atts ++ [attempt])
        (if rest.isEmpty then sls else sls ++ [attempt * retryDelaySec])

/-- Go `uploadWithRetry` (convenience.go lines 483-519): attempts
numbered 1 through `maxRetries` = 3. -/
def uploadWithRetry (uploads : Nat → Option String) : RetryTrace :=
  uploadWithRetryGo uploads [1, 2, 3] none [] []

theorem uploadWithRetry_cases (uploads : Nat → Option String) :
    (uploads 1 = none ∧ uploadWithRetry uploads = ⟨[1], [], none⟩) ∨
    (∃ e1, uploads 1 = some e1 ∧ isRetryableError e1 = false ∧
      uploadWithRetry uploads = ⟨[1], [], some e1⟩) ∨
    (∃ e1, uploads 1 = some e1 ∧ isRetryableError e1 = true ∧ uploads 2 = none ∧
      uploadWithRetry uploads = ⟨[1, 2], [2], none⟩) ∨
    (∃ e1 e2, uploads 1 = some e1 ∧ isRetryableError e1 = true ∧ uploads 2 = some e2 ∧
      isRetryableError e2 = false ∧ uploadWithRetry uploads = ⟨[1, 2], [2], some e2⟩) ∨
    (∃ e1 e2, uploads 1 = some e1 ∧ isRetryableError e1 = true ∧ uploads 2 = some e2 ∧
      isRetryableError e2 = true ∧ uploads 3 = none ∧
      uploadWithRetry uploads = ⟨[1, 2, 3], [2, 4], none⟩) ∨
    (∃ e1 e2 e3, uploads 1 = some e1 ∧ isRetryableError e1 = true ∧ uploads 2 = some e2 ∧
      isRetryableError e2 = true ∧ uploads 3 = some e3 ∧ isRetryableError e3 = false ∧
      uploadWithRetry uploads = ⟨[1, 2, 3], [2, 4], some e3⟩) ∨
    (∃ e1 e2 e3, uploads 1 = some e1 ∧ isRetryableError e1 = true ∧ uploads 2 = some e2 ∧
      isRetryableError e2 = true ∧ uploads 3 = some e3 ∧ isRetryableError e3 = true ∧
      uploadWithRetry uploads = ⟨[1, 2, 3], [2, 4], some (wrapRetryFailure e3)⟩) := by
  unfold uploadWithRetry
  rcases h1 : uploads 1 with _ | e1
  · refine Or.inl ⟨?_, ?_⟩ <;> simp [uploadWithRetryGo, h1]
  · rcases hr1 : isRetryableError e1 with _ | _
    · refine Or.inr (Or.inl ⟨e1, ?_, ?_, ?_⟩) <;> simp [uploadWithRetryGo, h1, hr1]
    · rcases h2 : uploads 2 with _ | e2
      · refine Or.inr (Or.inr (Or.inl ⟨e1, ?_, ?_, ?_, ?_⟩)) <;>
          simp [uploadWithRetryGo, h1, hr1, h2, retryDelaySec]
      · rcases hr2 : isRetryableError e2 with _ | _
        · refine Or.inr (Or.inr (Or.inr (Or.inl ⟨e1, e2, ?_, ?_, ?_, ?_, ?_⟩))) <;>
            simp [uploadWithRetryGo, h1, hr1, h2, hr2, retryDelaySec]
        · rcases h3 : uploads 3 with _ | e3
          · refine Or.inr (Or.inr (Or.inr (Or.inr (Or.inl
                ⟨e1, e2, ?_, ?_, ?_, ?_, ?_, ?_⟩)))) <;>
              simp [uploadWithRetryGo, h1, hr1, h2, hr2, h3, retryDelaySec]
          · rcases hr3 : isRetryableError e3 with _ | _
            · refine Or.inr (Or.inr (Or.inr (Or.inr (Or.inr (Or.inl
                  ⟨e1, e2, e3, ?_, ?_, ?_, ?_, ?_, ?_, ?_⟩))))) <;>
                simp [uploadWithRetryGo, h1, hr1, h2, hr2, h3, hr3, retryDelaySec]
            · refine Or.inr (Or.inr (Or.inr (Or.inr (Or.inr (Or.inr
                  ⟨e1, e2, e3, ?_, ?_, ?_, ?_, ?_, ?_, ?_⟩))))) <;>
                simp [uploadWithRetryGo, h1, hr1, h2, hr2, h3, hr3, retryDelaySec]

/-- Claim C4: the member-upload retry wrapper makes at most 3 attempts;
sleeps of `attempt * 2` seconds occur exactly after each non-final
attempt; every attempt beyond the first requires the previous error to
match the six-substring retry predicate; a non-retryable first failure
is returned immediately after a single attempt with no sleeps; and
three retryable failures yield the error wrapping the last failure
after attempts 1, 2, 3 and sleeps of 2 and 4 seconds. -/
theorem claim4_uploadWithRetry :
    (∀ uploads : Nat → Option String, (uploadWithRetry uploads).attempts.length ≤ 3) ∧
    (∀ uploads : Nat → Option String,
      (uploadWithRetry uploads).sleeps =
        (uploadWithRetry uploads).attempts.dropLast.map (fun a => a * retryDelaySec)) ∧
    (∀ (uploads : Nat → Option String) (k : Nat), 2 ≤ k →
      k ∈ (uploadWithRetry uploads).attempts →
      ∃ e, uploads (k - 1) = some e ∧ isRetryableError e = true) ∧
    (∀ (uploads : Nat → Option String) (e : String), uploads 1 = some e →
      isRetryableError e = false → uploadWithRetry uploads = ⟨[1], [], some e⟩) ∧
    (∀ (uploads : Nat → Option String) (e1 e2 e3 : String),
      uploads 1 = some e1 → isRetryableError e1 = true →
      uploads 2 = some e2 → isRetryableError e2 = true →
      uploads 3 = some e3 → isRetryableError e3 = true →
      uploadWithRetry uploads = ⟨[1, 2, 3], [2, 4], some (wrapRetryFailure e3)⟩) ∧
    (∀ m : String, isRetryableError m =
      (strContains (strToLower m) "isrz002" || strContains (strToLower m) "i/o error" ||
       strContains (strToLower m) "lmfind error" || strContains (strToLower m) "directory" ||
       strContains (strToLower m) "timeout" || strContains (strToLower m) "connection")) := by
  refine ⟨?_, ?_, ?_, ?_, ?_, fun m => rfl⟩
  · intro uploads
    rcases uploadWithRetry_cases uploads with ⟨-, h⟩ | ⟨e1, -, -, h⟩ | ⟨e1, -, -, -, h⟩ |
      ⟨e1, e2, -, -, -, -, h⟩ | ⟨e1, e2, -, -, -, -, -, h⟩ |
      ⟨e1, e2, e3, -, -, -, -, -, -, h⟩ | ⟨e1, e2, e3, -, -, -, -, -, -, h⟩ <;>
      simp [h]
  · intro uploads
    rcases uploadWithRetry_cases uploads with ⟨-, h⟩ | ⟨e1, -, -, h⟩ | ⟨e1, -, -, -, h⟩ |
      ⟨e1, e2, -, -, -, -, h⟩ | ⟨e1, e2, -, -, -, -, -, h⟩ |
      ⟨e1, e2, e3, -, -, -, -, -, -, h⟩ | ⟨e1, e2, e3, -, -, -, -, -, -, h⟩ <;>
      simp [h, retryDelaySec]
  · intro uploads k hk hmem
    rcases uploadWithRetry_cases uploads with ⟨-, h⟩ | ⟨e1, h1, -, h⟩ | ⟨e1, h1, hr1, -, h⟩ |
      ⟨e1, e2, h1, hr1, -, -, h⟩ | ⟨e1, e2, h1, hr1, h2, hr2, -, h⟩ |
      ⟨e1, e2, e3, h1, hr1, h2, hr2, -, -, h⟩ | ⟨e1, e2, e3, h1, hr1, h2, hr2, -, -, h⟩ <;>
      rw [h] at hmem <;> simp at hmem
    · omega
    · omega
    · rcases hmem with h' | h' <;> first
        | omega
        | (subst h'; exact ⟨e1, h1, hr1⟩)
    · rcases hmem with h' | h' <;> first
        | omega
        | (subst h'; exact ⟨e1, h1, hr1⟩)
    · rcases hmem with h' | h' | h'
      · omega
      · subst h'
        exact ⟨e1, h1, hr1⟩
      · subst h'
        exact ⟨e2, h2, hr2⟩
    · rcases hmem with h' | h' | h'
      · omega
      · subst h'
        exact ⟨e1, h1, hr1⟩
      · subst h'
        exact ⟨e2, h2, hr2⟩
    · rcases hmem with h' | h' | h'
      · omega
      · subst h'
        exact ⟨e1, h1, hr1⟩
      · subst h'
        exact ⟨e2, h2, hr2⟩
  · intro uploads e h1 hr1
    unfold uploadWithRetry
    simp [uploadWithRetryGo, h1, hr1]
  · intro uploads e1 e2 e3 h1 hr1 h2 hr2 h3 hr3
    unfold uploadWithRetry
    simp [uploadWithRetryGo, h1, hr1, h2, hr2, h3, hr3, retryDelaySec]

/-- Claim C4 witness: an upload that always fails with a retryable
"directory" error is attempted three times with sleeps of 2 and 4
seconds and returns the wrapped last failure, while a non-retryable
permission error is returned immediately after one attempt. -/
theorem claim4_witness :
    uploadWithRetry (fun _ => some "ISRZ002 directory error") =
      ⟨[1, 2, 3], [2, 4], some (wrapRetryFailure "ISRZ002 directory error")⟩ ∧
    uploadWithRetry (fun _ => some "permission denied") =
      ⟨[1], [], some "permission denied"⟩ :=
  ⟨claim4_uploadWithRetry.2.2.2.2.1 _ _ _ _ rfl (by decide) rfl (by decide) rfl (by decide),
   claim4_uploadWithRetry.2.2.2.1 _ _ rfl (by decide)⟩

end Datasets

/-! ## Jobs package: completion polling (convenience.go
`WaitForJobCompletion`) -/

namespace Jobs

/-- Timeout error produced by the polling loop (convenience.go line
102). -/
def timeoutMsg (correlator : String) : String :=
  "timeout waiting for job " ++ correlator ++ " to complete"

/-- Wrapped per-poll fetch error (convenience.go line 108). -/
def statusFailMsg (e : String) : String := "failed to get job status: " ++ e

/-- The polling loop of `WaitForJobCompletion` (convenience.go lines
96-119).  `polls n` is the outcome of the n-th `GetJobStatus` call;
elapsed wall-clock time before poll `n` is modelled as
`n * pollInterval` (the n sleeps performed so far).  `fuel` bounds the
number of iterations so the function is total; `none` means the fuel ran
out before the loop returned. -/
def waitPoll (polls : Nat → Except String String) (correlator : String)
    (timeout pollInterval : Nat) : Nat → Nat → Option (Except String String)
  | 0, _ => none
  | fuel + 1, n =>
    if n * pollInterval > timeout then some (.error (timeoutMsg correlator))
    else
      match polls n with
      | .error e => some (.error (statusFailMsg e))
      | .ok status =>
        if isJobComplete status then some (.ok status)
        else waitPoll polls correlator timeout pollInterval fuel (n + 1)

/-- Go `WaitForJobCompletion`: the loop started at elapsed time zero. -/
def WaitForJobCompletion (polls : Nat → Except String String) (correlator : String)
    (timeout pollInterval : Nat) (fuel : Nat) : Option (Except String String) :=
  waitPoll polls correlator timeout pollInterval fuel 0

theorem waitPoll_no_success (polls : Nat → Except String String) (correlator : String)
    (timeout pollInterval : Nat)
    (hnc : ∀ k s, polls k = .ok s → isJobComplete s = false) :
    ∀ fuel n s, waitPoll polls correlator timeout pollInterval fuel n ≠ some (.ok s) := by
  intro fuel
  induction fuel with
  | zero => intro n s h; exact absurd h (by simp [waitPoll])
  | succ fuel ih =>
    intro n s h
    rw [waitPoll] at h
    by_cases ht : n * pollInterval > timeout
    · rw [if_pos ht] at h
      exact absurd h (by simp)
    · rw [if_neg ht] at h
      rcases hp : polls n with e | status
      · simp [hp] at h
      · simp [hp, hnc n status hp] at h
        exact ih (n + 1) s h

theorem waitPoll_timeout (polls : Nat → Except String String) (correlator : String)
    (timeout pollInterval : Nat) (hp : 1 ≤ pollInterval)
    (hall : ∀ k, ∃ s, polls k = .ok s ∧ isJobComplete s = false) :
    ∀ fuel n, timeout + 1 - n * pollInterval + 1 ≤ fuel →
      waitPoll polls correlator timeout pollInterval fuel n =
        some (.error (timeoutMsg correlator)) := by
  intro fuel
  induction fuel with
  | zero => intro n hf; omega
  | succ fuel ih =>
    intro n hf
    rw [waitPoll]
    by_cases ht : n * pollInterval > timeout
    · rw [if_pos ht]
    · rw [if_neg ht]
      obtain ⟨s, hs, hns⟩ := hall n
      simp only [hs, hns, Bool.false_eq_true, if_false]
      apply ih
      have hmul : (n + 1) * pollInterval = n * pollInterval + pollInterval :=
        Nat.succ_mul n pollInterval
      omega

/-- Claim C5: the polling loop never returns success when every polled
status fails the completion test; with non-completing statuses it
returns the timeout error once elapsed time exceeds the timeout (fuel
`timeout + 2` always suffices when the poll interval is positive); and
a failing status fetch inside the window aborts the loop immediately
with the wrapped fetch error. -/
theorem claim5_waitForJobCompletion :
    (∀ (polls : Nat → Except String String) (correlator : String)
      (timeout pollInterval fuel n : Nat) (s : String),
      (∀ k s', polls k = .ok s' → isJobComplete s' = false) →
      waitPoll polls correlator timeout pollInterval fuel n ≠ some (.ok s)) ∧
    (∀ (polls : Nat → Except String String) (correlator : String)
      (timeout pollInterval : Nat), 1 ≤ pollInterval →
      (∀ k, ∃ s, polls k = .ok s ∧ isJobComplete s = false) →
      WaitForJobCompletion polls correlator timeout pollInterval (timeout + 2) =
        some (.error (timeoutMsg correlator))) ∧
    (∀ (polls : Nat → Except String String) (correlator : String)
      (timeout pollInterval fuel n : Nat) (e : String),
      ¬(n * pollInterval > timeout) → polls n = .error e →
      waitPoll polls correlator timeout pollInterval (fuel + 1) n =
        some (.error (statusFailMsg e))) := by
  refine ⟨?_, ?_, ?_⟩
  · intro polls correlator timeout pollInterval fuel n s hnc
    exact waitPoll_no_success polls correlator timeout pollInterval hnc fuel n s
  · intro polls correlator timeout pollInterval hp hall
    apply waitPoll_timeout polls correlator timeout pollInterval hp hall
    omega
  · intro polls correlator timeout pollInterval fuel n e ht hpoll
    rw [waitPoll, if_neg ht, hpoll]

/-- Claim C5 witness: a job stuck in "ACTIVE" with timeout 5 and poll
interval 2 produces the timeout error, and a failing first fetch aborts
immediately with the wrapped fetch error. -/
theorem claim5_witness :
    WaitForJobCompletion (fun _ => .ok "ACTIVE") "TESTJOB:JOB001" 5 2 7 =
      some (.error (timeoutMsg "TESTJOB:JOB001")) ∧
    waitPoll (fun _ => .error "API request failed with status 404") "TESTJOB:JOB001" 5 2 1 0 =
      some (.error (statusFailMsg "API request failed with status 404")) :=
  ⟨claim5_waitForJobCompletion.2.1 _ _ 5 2 (by decide)
      (fun _ => ⟨"ACTIVE", rfl, by decide⟩),
   claim5_waitForJobCompletion.2.2 _ _ 5 2 0 0 _ (by decide) rfl⟩

end Jobs

/-! ## URL path escaping (Go `net/url.PathEscape`) -/

/-- Uppercase hexadecimal digit for a value below 16. -/
def upperHexDigit (n : Nat) : Char :=
  if n < 10 then Char.ofNat (48 + n) else Char.ofNat (55 + n)

/-- Byte classification of Go's `shouldEscape(c, encodePathSegment)`:
alphanumerics, `- _ . ~` and `$ & + : = @` stay literal; everything
else (including `/ ; , ?`) is percent-escaped. -/
def shouldEscapePathSeg (b : Nat) : Bool :=
  if (97 ≤ b ∧ b ≤ 122) ∨ (65 ≤ b ∧ b ≤ 90) ∨ (48 ≤ b ∧ b ≤ 57) then false
  else if b = 45 ∨ b = 95 ∨ b = 46 ∨ b = 126 then false
  else if b = 36 ∨ b = 38 ∨ b = 43 ∨ b = 58 ∨ b = 61 ∨ b = 64 then false
  else true

/-- Go `url.PathEscape`: per-byte escaping of the UTF-8 encoding. -/
def pathEscape (s : String) : String :=
  ⟨(s.toUTF8.data.toList.map (fun b => b.toNat)).foldr
    (fun b acc =>
      (if shouldEscapePathSeg b then
         ['%', upperHexDigit (b / 16), upperHexDigit (b % 16)]
       else [Char.ofNat b]) ++ acc) []⟩

/-! ## Datasets package: copy and rename request construction
(manager.go `CopySequentialDataset`, `CopyMember`, `RenameDataset`) -/

/-- An HTTP request as the dataset manager assembles it: method, full
URL, content type and decoded JSON body.  Go's `json.Marshal` emits map
keys in sorted order, which is the field order used below; JSON object
key order carries no meaning. -/
structure HttpReq where
  method : String
  url : String
  contentType : String
  body : Json

namespace Datasets

/-- Request built by `CopySequentialDataset` (manager.go lines 568-614):
PUT to the target dataset name with the copy body naming the source. -/
def CopySequentialDataset_req (baseURL sourceName targetName : String) : HttpReq :=
  ⟨"PUT", baseURL ++ "/restfiles/ds/" ++ pathEscape targetName, "application/json",
   .obj [("from-dataset", .obj [("dsn", .str sourceName)]), ("request", .str "copy")]⟩

/-- Request built by `CopyMember` (manager.go lines 619-666): PUT to the
target `dataset(member)` path with the copy body naming source dataset
and member. -/
def CopyMember_req (baseURL sourceName sourceMember targetName targetMember : String) :
    HttpReq :=
  ⟨"PUT",
   baseURL ++ "/restfiles/ds/" ++ pathEscape targetName ++ "(" ++ pathEscape targetMember ++ ")",
   "application/json",
   .obj [("from-dataset", .obj [("dsn", .str sourceName), ("member", .str sourceMember)]),
         ("request", .str "copy")]⟩

/-- Request built by `RenameDataset` (manager.go lines 669-715): PUT to
the new dataset name with the rename body naming the old one. -/
def RenameDataset_req (baseURL oldName newName : String) : HttpReq :=
  ⟨"PUT", baseURL ++ "/restfiles/ds/" ++ pathEscape newName, "application/json",
   .obj [("from-dataset", .obj [("dsn", .str oldName)]), ("request", .str "rename")]⟩

/-- The `from-dataset` object of the claim's body shape: the source
dataset name plus, for member copies, the source member. -/
def specFromDataset (source : String) (sourceMember : Option String) : Json :=
  .obj (("dsn", Json.str source) ::
    (match sourceMember with
     | none => []
     | some m => [("member", Json.str m)]))

/-- JSON body exactly as the claim words it:
`{"request": "copy"|"rename", "from-dataset": {"dsn": source[, "member": m]}}`
(fields listed in Go's sorted marshal order). -/
def specCopyRenameBody (req source : String) (sourceMember : Option String) : Json :=
  .obj [("from-dataset", specFromDataset source sourceMember), ("request", .str req)]

/-- Claim C8: copy and rename are PUT requests to the target dataset
name — the source appears only in the body — with JSON body exactly
`{"request": "copy"|"rename", "from-dataset": {"dsn": source}}` and,
for member copy, an additional `"member"` field inside `from-dataset`. -/
theorem claim8_copyRename_requests (baseURL src srcMember tgt tgtMember old new : String) :
    CopySequentialDataset_req baseURL src tgt =
      ⟨"PUT", baseURL ++ "/restfiles/ds/" ++ pathEscape tgt, "application/json",
       specCopyRenameBody "copy" src none⟩ ∧
    CopyMember_req baseURL src srcMember tgt tgtMember =
      ⟨"PUT",
       baseURL ++ "/restfiles/ds/" ++ pathEscape tgt ++ "(" ++ pathEscape tgtMember ++ ")",
       "application/json", specCopyRenameBody "copy" src (some srcMember)⟩ ∧
    RenameDataset_req baseURL old new =
      ⟨"PUT", baseURL ++ "/restfiles/ds/" ++ pathEscape new, "application/json",
       specCopyRenameBody "rename" old none⟩ :=
  ⟨rfl, rfl, rfl⟩

/-- Claim C8 witness: the copy-request shape evaluated at concrete
dataset names. -/
theorem claim8_witness :
    CopySequentialDataset_req "https://host/zosmf" "SRC.DS" "TGT.DS" =
      ⟨"PUT", "https://host/zosmf" ++ "/restfiles/ds/" ++ pathEscape "TGT.DS",
       "application/json", specCopyRenameBody "copy" "SRC.DS" none⟩ :=
  (claim8_copyRename_requests "https://host/zosmf" "SRC.DS" "M1" "TGT.DS" "M2" "O.DS" "N.DS").1

end Datasets

/-! ## Jobs package: spool-output aggregation (convenience.go
`GetJobOutput`) -/

namespace Jobs

/-- Go map assignment `output[key] = value` on an association-list model
of `map[string]string`. -/
def mapSet : List (String × String) → String → String → List (String × String)
  | [], k, v => [(k, v)]
  | (k', v') :: rest, k, v =>
    if k' = k then (k, v) :: rest else (k', v') :: mapSet rest k v

/-- Go map lookup `output[key]`. -/
def mapGet : List (String × String) → String → Option String
  | [], _ => none
  | (k', v') :: rest, k => if k' = k then some v' else mapGet rest k

/-- A spool file (`jobs.SpoolFile`): the fields `GetJobOutput` reads,
plus record and byte counts. -/
structure SpoolFile where
  id : Int
  ddname : String
  records : Int
  bytes : Int
deriving DecidableEq, Repr

/-- The remote calls `GetJobOutput` performs, as oracle functions:
`ListJobs` restricted to a job-id filter, `GetSpoolFiles`, and
`GetSpoolFileContent`. -/
structure JobsOracle where
  listJobsByID : String → Except String (List Job)
  getSpoolFiles : String → String → Except String (List SpoolFile)
  getSpoolFileContent : String → String → Int → Except String String

/-- Go `strings.Split` on a single-character separator. -/
def splitChars (sep : Char) : List Char → List (List Char)
  | [] => [[]]
  | c :: cs =>
    let r := splitChars sep cs
    if c == sep then [] :: r
    else
      match r with
      | [] => [[c]]
      | g :: gs => (c :: g) :: gs

/-- Go `parseCorrelator` (convenience.go lines 12-18): split on ":" and
require exactly two parts. -/
def parseCorrelator (correlator : String) : Except String (String × String) :=
  match splitChars ':' correlator.data with
  | [a, b] => .ok (⟨a⟩, ⟨b⟩)
  | _ => .error ("correlator must be in format 'jobname:jobid', got: " ++ correlator)

/-- The aggregation loop of `GetJobOutput` (convenience.go lines
207-216): fetch the content of each spool file; on a fetch error,
continue with the remaining files without recording anything for that
DD. -/
def collectSpoolFrom (fetch : Int → Except String String) :
    List SpoolFile → List (String × String) → List (String × String)
  | [], output => output
  | sf :: rest, output =>
    match fetch sf.id with
    | .error _ => collectSpoolFrom fetch rest output
    | .ok content => collectSpoolFrom fetch rest (mapSet output sf.ddname content)

/-- The aggregation loop started from the empty map. -/
def collectSpool (fetch : Int → Except String String) (files : List SpoolFile) :
    List (String × String) :=
  collectSpoolFrom fetch files []

/-- Go `GetJobOutput` (convenience.go lines 162-219): resolve the
correlator (splitting on ":", or searching by bare job id through
`ListJobs`), fetch the spool-file list, then aggregate per-DD content,
skipping DDs whose fetch fails. -/
def GetJobOutput (oracle : JobsOracle) (correlator : String) :
    Except String (List (String × String)) :=
  let resolved : Except String (String × String) :=
    if strContains correlator ":" then
      match parseCorrelator correlator with
      | .error e => .error ("invalid correlator format: " ++ e)
      | .ok nid => .ok nid
    else
      match oracle.listJobsByID correlator with
      | .error e => .error ("failed to find job with ID " ++ correlator ++ ": " ++ e)
      | .ok jobs =>
        match jobs.find? (fun job => job.jobid == correlator) with
        | some job => .ok (job.jobname, job.jobid)
        | none => .error ("job with ID " ++ correlator ++ " not found")
  match resolved with
  | .error e => .error e
  | .ok (jobName, jobID) =>
    match oracle.getSpoolFiles jobName jobID with
    | .error e => .error ("failed to get spool files: " ++ e)
    | .ok spoolFiles =>
      .ok (collectSpool (oracle.getSpoolFileContent jobName jobID) spoolFiles)

theorem mapGet_mapSet_ne (output : List (String × String)) (k v d : String) (h : k ≠ d) :
    mapGet (mapSet output k v) d = mapGet output d := by
  induction output with
  | nil => simp [mapSet, mapGet, h]
  | cons kv rest ih =>
    obtain ⟨k', v'⟩ := kv
    by_cases hk : k' = k
    · subst hk
      simp [mapSet, mapGet, h]
    · simp [mapSet, mapGet, hk, ih]

theorem collectSpoolFrom_all_fail (fetch : Int → Except String String) (d : String) :
    ∀ (files : List SpoolFile) (output : List (String × String)),
      (∀ sf ∈ files, sf.ddname = d → ∃ m, fetch sf.id = .error m) →
      mapGet (collectSpoolFrom fetch files output) d = mapGet output d := by
  intro files
  induction files with
  | nil => intro output hall; rfl
  | cons sf rest ih =>
    intro output hall
    rw [collectSpoolFrom]
    rcases hf : fetch sf.id with m | content
    · exact ih output (fun x hx hd => hall x (List.mem_cons_of_mem sf hx) hd)
    · have hne : sf.ddname ≠ d := by
        intro hd
        obtain ⟨m, hm⟩ := hall sf (List.mem_cons_self sf rest) hd
        rw [hf] at hm
        exact absurd hm (by simp)
      rw [ih (mapSet output sf.ddname content)
        (fun x hx hd => hall x (List.mem_cons_of_mem sf hx) hd)]
      exact mapGet_mapSet_ne output sf.ddname content d hne

theorem collectSpoolFrom_drop_failed (fetch : Int → Except String String)
    (sf : SpoolFile) (m : String) (post : List SpoolFile) (hf : fetch sf.id = .error m) :
    ∀ (pre : List SpoolFile) (output : List (String × String)),
      collectSpoolFrom fetch (pre ++ sf :: post) output =
        collectSpoolFrom fetch (pre ++ post) output := by
  intro pre
  induction pre with
  | nil =>
    intro output
    simp only [List.nil_append, collectSpoolFrom, hf]
  | cons x xs ih =>
    intro output
    simp only [List.cons_append, collectSpoolFrom]
    rcases hx : fetch x.id with mm | content
    · exact ih output
    · exact ih (mapSet output x.ddname content)

/-- Claim C9: when the correlator resolves and the spool list fetch
succeeds, `GetJobOutput` succeeds with the map aggregated by the
content loop — even when individual content fetches fail; every DD name
whose fetches all fail is absent from the result map; and the result is
identical to the one computed with the failing spool file removed from
the list, so a failed DD is indistinguishable from a DD producing no
entry. -/
theorem claim9_getJobOutput :
    (∀ (oracle : JobsOracle) (correlator jobName jobID : String) (files : List SpoolFile),
      strContains correlator ":" = true →
      parseCorrelator correlator = .ok (jobName, jobID) →
      oracle.getSpoolFiles jobName jobID = .ok files →
      GetJobOutput oracle correlator =
        .ok (collectSpool (oracle.getSpoolFileContent jobName jobID) files)) ∧
    (∀ (fetch : Int → Except String String) (files : List SpoolFile) (d : String),
      (∀ sf ∈ files, sf.ddname = d → ∃ m, fetch sf.id = .error m) →
      mapGet (collectSpool fetch files) d = none) ∧
    (∀ (fetch : Int → Except String String) (pre post : List SpoolFile)
      (sf : SpoolFile) (m : String), fetch sf.id = .error m →
      collectSpool fetch (pre ++ sf :: post) = collectSpool fetch (pre ++ post)) := by
  refine ⟨?_, ?_, ?_⟩
  · intro oracle correlator jobName jobID files hc hpc hsp
    unfold GetJobOutput
    rw [hc]
    simp only [if_true]
    rw [hpc]
    simp [hsp]
  · intro fetch files d hall
    rw [collectSpool, collectSpoolFrom_all_fail fetch d files [] hall]
    rfl
  · intro fetch pre post sf m hf
    unfold collectSpool
    exact collectSpoolFrom_drop_failed fetch sf m post hf pre []

/-- Oracle used by the claim C9 witness: two spool files, where fetching
DD "SYSPRINT" (id 2) fails. -/
def demoOracle : JobsOracle :=
  ⟨fun _ => .ok [],
   fun _ _ => .ok [⟨1, "JESMSGLG", 10, 100⟩, ⟨2, "SYSPRINT", 5, 50⟩],
   fun _ _ id => if id == 1 then .ok "JES2 JOB LOG" else .error "API request failed with status 500"⟩

/-- Claim C9 witness: with one succeeding and one failing spool fetch,
the call succeeds, the failing DD is absent, and removing the failing
spool file leaves the aggregate unchanged. -/
theorem claim9_witness :
    GetJobOutput demoOracle "TESTJOB:JOB001" = .ok [("JESMSGLG", "JES2 JOB LOG")] ∧
    mapGet (collectSpool (demoOracle.getSpoolFileContent "TESTJOB" "JOB001")
      [⟨2, "SYSPRINT", 5, 50⟩]) "SYSPRINT" = none ∧
    collectSpool (demoOracle.getSpoolFileContent "TESTJOB" "JOB001")
      ([⟨1, "JESMSGLG", 10, 100⟩] ++ ⟨2, "SYSPRINT", 5, 50⟩ :: []) =
      collectSpool (demoOracle.getSpoolFileContent "TESTJOB" "JOB001")
        ([⟨1, "JESMSGLG", 10, 100⟩] ++ []) := by
  refine ⟨?_, ?_, ?_⟩
  · rw [claim9_getJobOutput.1 demoOracle "TESTJOB:JOB001" "TESTJOB" "JOB001"
      [⟨1, "JESMSGLG", 10, 100⟩, ⟨2, "SYSPRINT", 5, 50⟩] rfl rfl rfl]
    rfl
  · exact claim9_getJobOutput.2.1 _ _ "SYSPRINT"
      (fun sf hsf hd => by
        rcases List.mem_singleton.mp hsf with h
        subst h
        exact ⟨"API request failed with status 500", rfl⟩)
  · exact claim9_getJobOutput.2.2 _ _ _ ⟨2, "SYSPRINT", 5, 50⟩
      "API request failed with status 500" rfl

end Jobs

end Zowe
